import Mathlib

/-!
Verification of the self-update engine of `main.py` (OrganiseTesCours).

The Python source is shallowly embedded below:

* `compareVersions` embeds `_compare_versions` (main.py:348-369);
* `fetchNormalize` embeds the JSON-shape normalization of `_fetch_update_info`
  (main.py:372-405) and `resolveVersion` the manifest-alias resolution of
  `_notify_update_on_ui` (main.py:264-280);
* `applyUpdateFile` embeds `_apply_update_file` (main.py:167-256) over an
  explicit file-system state `FS`.

Machine-level details that the claims do not depend on are modelled
abstractly but faithfully: SHA-256 is an arbitrary hash function carried in
the context `Ctx` (the code only compares its hex digest with the manifest
value), `os.path.abspath` is a context function (it depends on the process
working directory), and file writes either succeed in full or raise
(`shutil.copy2` to a path in `FS.locked` raises, modelling an OS lock).
-/

namespace OrganiseTesCours

/-! ## String primitives

Structural (kernel-computable) versions of the Python string operations the
updater uses.  All strings the code compares case-insensitively (hex digests,
`.exe` suffixes) are ASCII, so ASCII lowering is faithful here. -/

/-- Is the first list a prefix of the second? -/
def listIsPrefix : List Char → List Char → Bool
  | [], _ => true
  | _ :: _, [] => false
  | a :: as, b :: bs => a == b && listIsPrefix as bs

/-- `s.startswith(pre)`. -/
def strStartsWith (s pre : String) : Bool :=
  listIsPrefix pre.data s.data

/-- `s.endswith(suf)`. -/
def strEndsWith (s suf : String) : Bool :=
  listIsPrefix suf.data.reverse s.data.reverse

/-- ASCII lowering of one character (`str.lower` on the ASCII range). -/
def charLower (c : Char) : Char :=
  if 65 ≤ c.toNat ∧ c.toNat ≤ 90 then Char.ofNat (c.toNat + 32) else c

/-- `s.lower()` on ASCII strings. -/
def strLower (s : String) : String :=
  String.mk (s.data.map charLower)

/-- Helper for `str.split('.')`: `acc` holds the reversed current segment. -/
def splitDotAux : List Char → List Char → List (List Char)
  | [], acc => [acc.reverse]
  | c :: rest, acc =>
    if c = '.' then acc.reverse :: splitDotAux rest []
    else splitDotAux rest (c :: acc)

/-- Python `s.split('.')`: keeps empty segments, `"".split('.') = [""]`. -/
def pySplitDot (s : String) : List String :=
  (splitDotAux s.data []).map String.mk

/-! ## POSIX path helpers (`os.path.basename` / `dirname` / `join`), as used
by the script on relative and absolute slash-separated paths. -/

/-- `os.path.basename`: the part after the last slash. -/
def pathBasename (s : String) : String :=
  String.mk ((s.data.reverse.takeWhile (fun c => c != '/')).reverse)

/-- `os.path.dirname`: everything up to the last slash, with trailing slashes
stripped unless the prefix is all slashes (`dirname "/a" = "/"`,
`dirname "a" = ""`). -/
def pathDirname (s : String) : String :=
  let head := (s.data.reverse.dropWhile (fun c => c != '/')).reverse
  if head.all (fun c => c == '/') then String.mk head
  else String.mk ((head.reverse.dropWhile (fun c => c == '/')).reverse)

/-- `os.path.join a b` for a relative or absolute second component. -/
def pathJoin (a b : String) : String :=
  if strStartsWith b "/" then b
  else if a = "" then b
  else if strEndsWith a "/" then a ++ b
  else a ++ "/" ++ b

/-! ## `_compare_versions` (main.py:348-369)

Python character-level facts used by the embedding: `str.isdigit` is true
for the ASCII digits and also for digit characters that are not decimal
digits, such as the compatibility superscripts `¹ ² ³` (Unicode
`Numeric_Type=Digit`); `int()` accepts the ASCII digits but raises
`ValueError` on the superscripts.  The model's character universe covers
the ASCII digits plus those three superscripts as representatives. -/

/-- One character of Python `str.isdigit`: ASCII digit or a compatibility
superscript digit. -/
def pyIsDigitChar (c : Char) : Bool :=
  c.isDigit || c == '¹' || c == '²' || c == '³'

/-- Python `s.isdigit()`: non-empty and every character a digit. -/
def pyIsDigit (s : String) : Bool :=
  !s.data.isEmpty && s.data.all pyIsDigitChar

/-- Decimal value of an ASCII digit string. -/
def digitsToNat (cs : List Char) : Nat :=
  cs.foldl (fun n c => n * 10 + (c.toNat - 48)) 0

/-- Python `int(s)` restricted to the segments fed to it here: succeeds on
non-empty ASCII-digit strings, raises (`Option.none`) otherwise — in
particular on superscript digits that passed `str.isdigit`. -/
def pyInt? (s : String) : Option Nat :=
  if !s.data.isEmpty && s.data.all Char.isDigit then some (digitsToNat s.data)
  else Option.none

/-- The list comprehension `[int(x) for x in str(a).split('.') if x.isdigit()]`:
`Option.none` models the comprehension raising `ValueError`. -/
def parseSegments : List String → Option (List Nat)
  | [] => some []
  | s :: rest =>
    match pyInt? s, parseSegments rest with
    | some v, some l => some (v :: l)
    | _, _ => Option.none

/-- Numeric segments of a version string, or `Option.none` when the
comprehension raises. -/
def pySegmentsParse (s : String) : Option (List Nat) :=
  parseSegments ((pySplitDot s).filter pyIsDigit)

/-- The `for i in range(n)` comparison loop over two equal-length padded
segment lists: first differing element decides. -/
def lexCompare : List Nat → List Nat → Int
  | x :: xs, y :: ys => if x < y then -1 else if y < x then 1 else lexCompare xs ys
  | _, _ => 0

/-- `_compare_versions(a, b)` (main.py:348-369): parse both strings; on
success right-pad with zeros and compare element-wise; if parsing raises,
fall back to raw string equality (`0` if `str(a) == str(b)` else `-1`). -/
def compareVersions (a b : String) : Int :=
  match pySegmentsParse a, pySegmentsParse b with
  | some pa, some pb =>
    let n := max pa.length pb.length
    lexCompare (pa ++ List.replicate (n - pa.length) 0)
      (pb ++ List.replicate (n - pb.length) 0)
  | _, _ => if a = b then 0 else -1

/-- The comparator described by the specification's words (claim C4):
"splits each version string on `.`, keeps only purely numeric segments" —
the purely numeric segments are exactly those `int()` accepts. -/
def specNumericSegments (s : String) : List Nat :=
  (pySplitDot s).filterMap pyInt?

/-- Specification-side comparison (claim C4): right-pad the shorter numeric
sequence with zeros and compare element-wise, first difference deciding. -/
def compareVersionsSpecC4 (a b : String) : Int :=
  let pa := specNumericSegments a
  let pb := specNumericSegments b
  let n := max pa.length pb.length
  lexCompare (pa ++ List.replicate (n - pa.length) 0)
    (pb ++ List.replicate (n - pb.length) 0)

/-! ## Manifest fetch / normalization (`_fetch_update_info`, main.py:372-405,
and the normalization prologue of `_notify_update_on_ui`, main.py:264-280)

JSON values as Python sees them after `json.loads`.  A JSON number is
carried by its Python `str()` rendering (e.g. `1.3` renders as `"1.3"`),
which is all the code ever does with it. -/

inductive JVal where
  | jnull : JVal
  | jbool : Bool → JVal
  | jnum : String → JVal
  | jstr : String → JVal
  | jarr : List JVal → JVal
  | jobj : List (String × JVal) → JVal
deriving BEq

mutual

/-- Python `repr` of a JSON-shaped value (container cases of `str`). -/
def pyRepr : JVal → String
  | JVal.jnull => "None"
  | JVal.jbool true => "True"
  | JVal.jbool false => "False"
  | JVal.jnum r => r
  | JVal.jstr s => "\x27" ++ s ++ "\x27"
  | JVal.jarr xs => "[" ++ pyReprElems xs ++ "]"
  | JVal.jobj fields => "\x7b" ++ pyReprFields fields ++ "\x7d"

/-- Comma-separated `repr`s of list elements. -/
def pyReprElems : List JVal → String
  | [] => ""
  | [x] => pyRepr x
  | x :: xs => pyRepr x ++ ", " ++ pyReprElems xs

/-- Comma-separated `repr`s of dict entries. -/
def pyReprFields : List (String × JVal) → String
  | [] => ""
  | [kv] => "\x27" ++ kv.1 ++ "\x27: " ++ pyRepr kv.2
  | kv :: xs => "\x27" ++ kv.1 ++ "\x27: " ++ pyRepr kv.2 ++ ", " ++ pyReprFields xs

end

/-- Python `str()` of a JSON-shaped value: a string is itself, scalars render
as Python renders them, containers fall back to `repr`. -/
def pyStr : JVal → String
  | JVal.jstr s => s
  | JVal.jnull => "None"
  | JVal.jbool true => "True"
  | JVal.jbool false => "False"
  | JVal.jnum r => r
  | v => pyRepr v

/-- Python dict lookup (`d[k]` / `k in d` / `d.get(k)`); keys are unique in a
dict built by `json.loads`. -/
def pyDictGet : List (String × JVal) → String → Option JVal
  | [], _ => Option.none
  | kv :: rest, key => if kv.1 = key then some kv.2 else pyDictGet rest key

/-- Python dict assignment `d[key] = v`: update in place if present,
append otherwise. -/
def pyDictSet : List (String × JVal) → String → JVal → List (String × JVal)
  | [], key, v => [(key, v)]
  | kv :: rest, key, v =>
    if kv.1 = key then (key, v) :: rest else kv :: pyDictSet rest key v

/-- The post-parse shape handling of `_fetch_update_info` (main.py:389-402):
dict → as-is; scalar (`isinstance(parsed, (int, float, str))`, which in
Python also admits `bool`) → `{'version': str(parsed)}`; non-empty list →
the same one-level treatment of its first element; anything else → `None`.
The `Option.none` input models a network error or unparsable body. -/
def fetchNormalize : Option JVal → Option (List (String × JVal))
  | Option.none => Option.none
  | some p =>
    match p with
    | JVal.jobj fields => some fields
    | JVal.jbool b => some [("version", JVal.jstr (pyStr (JVal.jbool b)))]
    | JVal.jnum r => some [("version", JVal.jstr r)]
    | JVal.jstr s => some [("version", JVal.jstr s)]
    | JVal.jarr (first :: _) =>
      match first with
      | JVal.jobj fields => some fields
      | JVal.jbool b => some [("version", JVal.jstr (pyStr (JVal.jbool b)))]
      | JVal.jnum r => some [("version", JVal.jstr r)]
      | JVal.jstr s => some [("version", JVal.jstr s)]
      | _ => Option.none
    | _ => Option.none

/-- The version-resolution prologue of `_notify_update_on_ui`
(main.py:264-280) applied to the fetcher's output (a dict or `None`; the
function's scalar-wrapping guard is unreachable from that source): resolve
the aliases `ver`, `v`, `release` onto the key `version` when `version` is
absent, then return `str(remote_info['version'])` unless missing or empty. -/
def resolveVersion : Option (List (String × JVal)) → Option String
  | Option.none => Option.none
  | some d =>
    let d' :=
      match pyDictGet d "version" with
      | some _ => d
      | Option.none =>
        match pyDictGet d "ver" with
        | some v => pyDictSet d "version" v
        | Option.none =>
          match pyDictGet d "v" with
          | some v => pyDictSet d "version" v
          | Option.none =>
            match pyDictGet d "release" with
            | some v => pyDictSet d "version" v
            | Option.none => d
    match pyDictGet d' "version" with
    | Option.none => Option.none
    | some v =>
      let rv := pyStr v
      if rv = "" then Option.none else some rv

/-- The manifest pipeline as exercised by `start_update_check`: fetch and
shape-normalize the body, then resolve the version; `some v` means the
host is offered version `v`, `Option.none` means "no update". -/
def updatePipeline (body : Option JVal) : Option String :=
  resolveVersion (fetchNormalize body)

/-! ## File-system state for `_apply_update_file` (main.py:167-256)

Files are an association list from path to content.  An archive file is
represented structurally (`FileData.zip` lists its members), matching
what `zipfile.is_zipfile` / `ZipFile.namelist` / `extractall` observe.
`locked` is the set of paths the OS refuses to write (a locked running
executable); `shutil.copy2` to such a path raises. -/

/-- Raw file bytes. -/
abbrev Bytes := List Nat

inductive FileData where
  | bytes : Bytes → FileData
  | zip : List (String × Bytes) → FileData
deriving DecidableEq

structure FS where
  files : List (String × FileData)
  locked : List String
deriving DecidableEq

/-- First-match association-list lookup. -/
def lookupList : List (String × FileData) → String → Option FileData
  | [], _ => Option.none
  | e :: rest, p => if e.1 = p then some e.2 else lookupList rest p

/-- Drop every entry at path `p`. -/
def removeList : List (String × FileData) → String → List (String × FileData)
  | [], _ => []
  | e :: rest, p => if e.1 = p then removeList rest p else e :: removeList rest p

def FS.lookup (fs : FS) (p : String) : Option FileData :=
  lookupList fs.files p

/-- `os.path.exists` (the model tracks files only). -/
def FS.pathExists (fs : FS) (p : String) : Bool :=
  (fs.lookup p).isSome

/-- Overwrite or create the file at `p`. -/
def FS.write (fs : FS) (p : String) (d : FileData) : FS :=
  ⟨(p, d) :: fs.files, fs.locked⟩

/-- `os.remove`. -/
def FS.remove (fs : FS) (p : String) : FS :=
  ⟨removeList fs.files p, fs.locked⟩

/-- `shutil.copy2 src dst`: raises (`Except.error`, carrying the unchanged
state) when `src` is missing or `dst` is write-locked; otherwise the copy
lands in full. -/
def copy2 (fs : FS) (src dst : String) : Except (String × FS) FS :=
  match fs.lookup src with
  | Option.none => Except.error ("FileNotFoundError: " ++ src, fs)
  | some d =>
    if dst ∈ fs.locked then Except.error ("PermissionError: " ++ dst, fs)
    else Except.ok (fs.write dst d)

/-- `try: shutil.copy2(src, dst) except Exception: pass` — the best-effort
backup copies of `_apply_update_file`. -/
def bestEffortCopy2 (fs : FS) (src dst : String) : FS :=
  match copy2 fs src dst with
  | Except.ok fs' => fs'
  | Except.error _ => fs

/-- The backup loop of the archive branch (main.py:192-198): for each member
whose target exists (checked against the evolving state), copy it into the
backup directory; the copy is not wrapped in `try`, so a failure propagates
to the outer handler. -/
def backupMembers (fs : FS) (installDir backupDir : String) :
    List String → Except (String × FS) FS
  | [] => Except.ok fs
  | m :: ms =>
    let target := pathJoin installDir m
    if fs.pathExists target then
      match copy2 fs target (pathJoin backupDir m) with
      | Except.error e => Except.error e
      | Except.ok fs' => backupMembers fs' installDir backupDir ms
    else backupMembers fs installDir backupDir ms

/-- `ZipFile.extractall` (main.py:200): write every member under `dir`,
overwriting; a write to a locked path raises, leaving earlier members
extracted. -/
def extractAll (fs : FS) (dir : String) :
    List (String × Bytes) → Except (String × FS) FS
  | [] => Except.ok fs
  | e :: rest =>
    let target := pathJoin dir e.1
    if target ∈ fs.locked then
      Except.error ("PermissionError: " ++ target, fs)
    else extractAll (fs.write target (FileData.bytes e.2)) dir rest

/-- Ambient process context of one `_apply_update_file` call: `sys.argv[0]`,
`sys.executable`, `os.path.abspath` (depends on the working directory),
the SHA-256 hex digest function (`_sha256_of_file` streams the same bytes
chunk-wise), `int(time.time())`, and whether `os.execv` succeeds. -/
structure Ctx where
  argv0 : String
  sysExecutable : String
  abspath : String → String
  sha256hex : FileData → String
  now : Nat
  execvOk : Bool

/-- `os.path.dirname(os.path.abspath(sys.argv[0]))` — the installation root. -/
def installDirOf (ctx : Ctx) : String :=
  pathDirname (ctx.abspath ctx.argv0)

/-- The timestamped backup directory of the archive branch (main.py:188). -/
def backupDirOf (ctx : Ctx) : String :=
  pathJoin (installDirOf ctx) ("backup_" ++ toString ctx.now)

/-- The branch condition of the executable-replacement case (main.py:208):
the artifact name ends in `.exe`, the basename of
`running_binary = os.path.abspath(sys.executable)` ends in `.exe`, and
`running_binary != sys.executable` — a raw string comparison of a path
with its own `abspath`. -/
def exeGuard (ctx : Ctx) (downloadedPath : String) : Bool :=
  strEndsWith (strLower (pathBasename downloadedPath)) ".exe"
  && strEndsWith (strLower (pathBasename (ctx.abspath ctx.sysExecutable))) ".exe"
  && decide (ctx.abspath ctx.sysExecutable ≠ ctx.sysExecutable)

/-- Which install strategy an apply attempt entered. -/
inductive Branch where
  | archive : Branch
  | exeReplace : Branch
  | script : Branch
deriving DecidableEq

/-- Control outcome of the body before cleanup/restart: an early
`return False, msg` (or a raised error caught by the outer handler),
or fall-through with `applied = True`. -/
inductive CoreRes where
  | fail : String → CoreRes
  | applied : CoreRes
deriving DecidableEq

structure CoreOut where
  res : CoreRes
  fs : FS
  branch : Option Branch
deriving DecidableEq

/-- CASE 1 of `_apply_update_file` (main.py:186-202): create the timestamped
backup directory, copy every colliding target into it, then extract the whole
archive over the installation root. -/
def archiveBranch (ctx : Ctx) (fs0 : FS) (entries : List (String × Bytes)) : CoreOut :=
  match backupMembers fs0 (installDirOf ctx) (backupDirOf ctx) (entries.map Prod.fst) with
  | Except.error e => ⟨CoreRes.fail e.1, e.2, some Branch.archive⟩
  | Except.ok fs1 =>
    match extractAll fs1 (installDirOf ctx) entries with
    | Except.error e => ⟨CoreRes.fail e.1, e.2, some Branch.archive⟩
    | Except.ok fs2 => ⟨CoreRes.applied, fs2, some Branch.archive⟩

/-- Executable replacement (main.py:208-225): best-effort `.bak_<ts>` copy of
the running binary, overwrite it with the artifact; if the overwrite raises,
write the artifact to the `.new` sibling and fail naming that path (a failure
of the `.new` write itself raises to the outer handler). -/
def exeBranch (ctx : Ctx) (fs0 : FS) (downloadedPath : String) : CoreOut :=
  let target_bin := ctx.abspath ctx.sysExecutable
  let backup_bin := target_bin ++ ".bak_" ++ toString ctx.now
  let fs1 := bestEffortCopy2 fs0 target_bin backup_bin
  match copy2 fs1 downloadedPath target_bin with
  | Except.ok fs2 => ⟨CoreRes.applied, fs2, some Branch.exeReplace⟩
  | Except.error e =>
    let alt := target_bin ++ ".new"
    match copy2 e.2 downloadedPath alt with
    | Except.ok fs3 =>
      ⟨CoreRes.fail
        ("Impossible d\x27écraser l\x27exécutable en cours. Nouveau fichier écrit : " ++ alt),
        fs3, some Branch.exeReplace⟩
    | Except.error e2 => ⟨CoreRes.fail e2.1, e2.2, some Branch.exeReplace⟩

/-- Script replacement (main.py:227-238): best-effort `.bak_<ts>` copy of the
running script, then overwrite it with the artifact; a write failure is a
hard failure. -/
def scriptBranch (ctx : Ctx) (fs0 : FS) (downloadedPath : String) : CoreOut :=
  let target_script := ctx.abspath ctx.argv0
  let backup_script := target_script ++ ".bak_" ++ toString ctx.now
  let fs1 := bestEffortCopy2 fs0 target_script backup_script
  match copy2 fs1 downloadedPath target_script with
  | Except.ok fs2 => ⟨CoreRes.applied, fs2, some Branch.script⟩
  | Except.error e =>
    ⟨CoreRes.fail ("Erreur écriture fichier : " ++ e.1), e.2, some Branch.script⟩

/-- The branch dispatch of `_apply_update_file` (main.py:181-238), entered
after the checksum gate: archive if `zipfile.is_zipfile`, executable
replacement under `exeGuard`, otherwise script replacement.  A missing
artifact makes `is_zipfile` raise to the outer handler. -/
def applyCoreBranches (ctx : Ctx) (fs0 : FS) (downloadedPath : String) : CoreOut :=
  match fs0.lookup downloadedPath with
  | Option.none =>
    ⟨CoreRes.fail ("FileNotFoundError: " ++ downloadedPath), fs0, Option.none⟩
  | some (FileData.zip entries) => archiveBranch ctx fs0 entries
  | some (FileData.bytes _) =>
    if exeGuard ctx downloadedPath then exeBranch ctx fs0 downloadedPath
    else scriptBranch ctx fs0 downloadedPath

/-- The checksum gate (main.py:175-179): `if expected_sha256:` is Python
truthiness, so `None` and `""` skip verification; a mismatch of the
case-insensitive hex digests is an early failure before any branch runs. -/
def applyCore (ctx : Ctx) (fs0 : FS) (downloadedPath : String)
    (expectedSha256 : Option String) : CoreOut :=
  match expectedSha256 with
  | some exp =>
    if exp = "" then applyCoreBranches ctx fs0 downloadedPath
    else
      match fs0.lookup downloadedPath with
      | Option.none =>
        ⟨CoreRes.fail ("FileNotFoundError: " ++ downloadedPath), fs0, Option.none⟩
      | some d =>
        if strLower (ctx.sha256hex d) = strLower exp then
          applyCoreBranches ctx fs0 downloadedPath
        else
          ⟨CoreRes.fail ("SHA256 mismatch (got " ++ ctx.sha256hex d ++ ")"), fs0,
            Option.none⟩
  | Option.none => applyCoreBranches ctx fs0 downloadedPath

/-- Does the checksum gate let the call through? -/
def checksumPasses (ctx : Ctx) (fs : FS) (p : String) (exp : Option String) : Bool :=
  match exp with
  | Option.none => true
  | some e =>
    if e = "" then true
    else
      match fs.lookup p with
      | Option.none => false
      | some d => decide (strLower (ctx.sha256hex d) = strLower e)

inductive ApplyResult where
  /-- `os.execv` succeeded: the process image was replaced. -/
  | restarted : ApplyResult
  /-- The function returned `(ok, msg)`. -/
  | ret : Bool → String → ApplyResult
deriving DecidableEq

structure ApplyOut where
  result : ApplyResult
  fs : FS
  branch : Option Branch
deriving DecidableEq

/-- Message of the success-despite-failed-restart return (main.py:253). -/
def manualRestartMsg : String :=
  "Mise à jour appliquée (redémarrage automatique échoué). Relance manuelle requise."

/-- `_apply_update_file(downloaded_path, expected_sha256, restart)`
(main.py:167-256).  After the branches, every fall-through path has
`applied = True`: the scratch artifact is removed (best-effort) and, when
`restart` was requested, `os.execv` either replaces the process or its
failure is reported as a success needing a manual relaunch. -/
def applyUpdateFile (ctx : Ctx) (fs0 : FS) (downloadedPath : String)
    (expectedSha256 : Option String) (restart : Bool) : ApplyOut :=
  let c := applyCore ctx fs0 downloadedPath expectedSha256
  match c.res with
  | CoreRes.fail m => ⟨ApplyResult.ret false m, c.fs, c.branch⟩
  | CoreRes.applied =>
    let fs1 := c.fs.remove downloadedPath
    if restart then
      if ctx.execvOk then ⟨ApplyResult.restarted, fs1, c.branch⟩
      else ⟨ApplyResult.ret true manualRestartMsg, fs1, c.branch⟩
    else ⟨ApplyResult.ret true "Mise à jour appliquée", fs1, c.branch⟩

/-! ## Concrete fixtures used by the witnesses and counterexamples -/

/-- A run from `/app` with absolute paths (`abspath` is the identity on
them) and a constant digest `"aa"`. -/
def ctxScript : Ctx :=
  ⟨"/app/main.py", "/usr/bin/python3", fun s => s, fun _ => "aa", 42, true⟩

/-- Same run, but `os.execv` fails. -/
def ctxScriptNoExec : Ctx :=
  ⟨"/app/main.py", "/usr/bin/python3", fun s => s, fun _ => "aa", 42, false⟩

/-- A frozen-style run launched with relative paths from `/app`:
`abspath` resolves against the working directory. -/
def ctxRelExe : Ctx :=
  ⟨"main.py", "app.exe", fun s => if strStartsWith s "/" then s else "/app/" ++ s,
    fun _ => "aa", 42, true⟩

/-- A script run whose interpreter path `python.exe` is relative, resolved
against the working directory `/cwd`. -/
def ctxRelPy : Ctx :=
  ⟨"main.py", "python.exe", fun s => if strStartsWith s "/" then s else "/cwd/" ++ s,
    fun _ => "aa", 5, true⟩

/-- A downloaded script artifact plus the installed script. -/
def fsScript : FS :=
  ⟨[("/tmp/u.py", FileData.bytes [7]), ("/app/main.py", FileData.bytes [1])], []⟩

/-- A downloaded two-member archive; `a.txt` collides with an installed file. -/
def fsArchive : FS :=
  ⟨[("/tmp/u.zip", FileData.zip [("a.txt", [1]), ("b.txt", [2])]),
    ("/app/main.py", FileData.bytes [9]), ("/app/a.txt", FileData.bytes [5])], []⟩

/-- A downloaded `.exe` artifact while the OS write-locks the running binary. -/
def fsLockedExe : FS :=
  ⟨[("/tmp/up.exe", FileData.bytes [7]), ("/app/app.exe", FileData.bytes [1])],
    ["/app/app.exe"]⟩

/-- A downloaded `.exe` artifact, the interpreter binary and the script,
nothing locked. -/
def fsCwdPy : FS :=
  ⟨[("/tmp/up.exe", FileData.bytes [7]), ("/cwd/python.exe", FileData.bytes [1]),
    ("/cwd/main.py", FileData.bytes [2])], []⟩

end OrganiseTesCours

namespace OrganiseTesCours

theorem pyInt?_isSome_isdigit {s : String} {v : Nat} (h : pyInt? s = some v) :
    pyIsDigit s = true := by
  unfold pyInt? at h
  split at h
  · rename_i hc
    simp only [Bool.and_eq_true] at hc
    unfold pyIsDigit
    simp only [Bool.and_eq_true, hc.1, true_and]
    refine List.all_eq_true.mpr ?_
    intro c hcmem
    unfold pyIsDigitChar
    simp [List.all_eq_true.mp hc.2 c hcmem]
  · exact absurd h (by simp)

theorem parseSegments_filter_eq (L : List String) :
    ∀ l : List Nat, parseSegments (L.filter pyIsDigit) = some l →
      L.filterMap pyInt? = l := by
  induction L with
  | nil => intro l h; simpa [parseSegments] using h.symm
  | cons s rest ih =>
    intro l h
    by_cases hd : pyIsDigit s = true
    · rw [List.filter_cons_of_pos hd] at h
      unfold parseSegments at h
      cases hv : pyInt? s with
      | none => rw [hv] at h; simp at h
      | some v =>
        rw [hv] at h
        cases hr : parseSegments (rest.filter pyIsDigit) with
        | none => rw [hr] at h; simp at h
        | some l' =>
          rw [hr] at h
          simp only [Option.some.injEq] at h
          rw [List.filterMap_cons_some hv, ih l' hr, h]
    · rw [List.filter_cons_of_neg (by simpa using hd)] at h
      have hnone : pyInt? s = Option.none := by
        cases hv : pyInt? s with
        | none => rfl
        | some v => exact absurd (pyInt?_isSome_isdigit hv) hd
      rw [List.filterMap_cons_none hnone]
      exact ih l h

theorem lexCompare_self (l : List Nat) : lexCompare l l = 0 := by
  induction l with
  | nil => rfl
  | cons x xs ih => simp [lexCompare, ih]

theorem lexCompare_cases (l1 l2 : List Nat) :
    lexCompare l1 l2 = -1 ∨ lexCompare l1 l2 = 0 ∨ lexCompare l1 l2 = 1 := by
  induction l1 generalizing l2 with
  | nil => cases l2 <;> simp [lexCompare]
  | cons x xs ih =>
    cases l2 with
    | nil => simp [lexCompare]
    | cons y ys =>
      by_cases h1 : x < y
      · simp [lexCompare, h1]
      · by_cases h2 : y < x
        · simp [lexCompare, h1, h2]
        · simpa [lexCompare, h1, h2] using ih ys

theorem allZero_eq {l1 l2 : List Nat} (hlen : l1.length = l2.length)
    (h1 : ∀ x ∈ l1, x = 0) (h2 : ∀ x ∈ l2, x = 0) : l1 = l2 := by
  induction l1 generalizing l2 with
  | nil => cases l2 with
    | nil => rfl
    | cons y ys => simp at hlen
  | cons x xs ih =>
    cases l2 with
    | nil => simp at hlen
    | cons y ys =>
      have hx := h1 x (by simp)
      have hy := h2 y (by simp)
      simp only [List.length_cons, Nat.succ.injEq] at hlen
      rw [hx, hy, ih hlen (fun z hz => h1 z (by simp [hz])) (fun z hz => h2 z (by simp [hz]))]

/-! ### File-system lemmas -/

theorem lookup_write_self (fs : FS) (p : String) (d : FileData) :
    (fs.write p d).lookup p = some d := by
  simp [FS.write, FS.lookup, lookupList]

theorem lookup_write_ne (fs : FS) (p : String) (d : FileData) (q : String)
    (h : q ≠ p) : (fs.write p d).lookup q = fs.lookup q := by
  simp only [FS.write, FS.lookup, lookupList]
  rw [if_neg (fun hh : p = q => h hh.symm)]

theorem write_locked (fs : FS) (p : String) (d : FileData) :
    (fs.write p d).locked = fs.locked := rfl

theorem remove_locked (fs : FS) (p : String) :
    (fs.remove p).locked = fs.locked := rfl

theorem lookupList_removeList (l : List (String × FileData)) (p q : String)
    (h : q ≠ p) : lookupList (removeList l p) q = lookupList l q := by
  induction l with
  | nil => rfl
  | cons e rest ih =>
    by_cases he : e.1 = p
    · rw [removeList, if_pos he, ih, lookupList,
        if_neg (fun hh : e.1 = q => h (hh ▸ he ▸ rfl : q = p))]
    · rw [removeList, if_neg he]
      by_cases heq : e.1 = q
      · simp [lookupList, heq]
      · simp [lookupList, heq, ih]

theorem lookup_remove_ne (fs : FS) (p q : String) (h : q ≠ p) :
    (fs.remove p).lookup q = fs.lookup q :=
  lookupList_removeList fs.files p q h

theorem lookupList_removeList_self (l : List (String × FileData)) (p : String) :
    lookupList (removeList l p) p = Option.none := by
  induction l with
  | nil => rfl
  | cons e rest ih =>
    by_cases he : e.1 = p
    · rw [removeList, if_pos he, ih]
    · rw [removeList, if_neg he, lookupList, if_neg he, ih]

theorem lookup_remove_self (fs : FS) (p : String) :
    (fs.remove p).lookup p = Option.none :=
  lookupList_removeList_self fs.files p

theorem lookup_write_isSome (fs : FS) (p : String) (d : FileData) (q : String)
    (h : (fs.lookup q).isSome = true) :
    ((fs.write p d).lookup q).isSome = true := by
  by_cases hq : q = p
  · subst hq; rw [lookup_write_self]; rfl
  · rwa [lookup_write_ne fs p d q hq]

theorem bestEffort_locked (fs : FS) (s d : String) :
    (bestEffortCopy2 fs s d).locked = fs.locked := by
  unfold bestEffortCopy2 copy2
  cases fs.lookup s with
  | none => rfl
  | some c =>
    by_cases h : d ∈ fs.locked
    · simp [h]
    · simp [h, write_locked]

theorem bestEffort_lookup_ne (fs : FS) (s d q : String) (h : q ≠ d) :
    (bestEffortCopy2 fs s d).lookup q = fs.lookup q := by
  unfold bestEffortCopy2 copy2
  cases fs.lookup s with
  | none => rfl
  | some c =>
    by_cases hl : d ∈ fs.locked
    · simp [hl]
    · simp [hl, lookup_write_ne fs d c q h]

theorem bestEffort_isSome (fs : FS) (s d q : String)
    (h : (fs.lookup q).isSome = true) :
    ((bestEffortCopy2 fs s d).lookup q).isSome = true := by
  unfold bestEffortCopy2 copy2
  cases fs.lookup s with
  | none => exact h
  | some c =>
    by_cases hl : d ∈ fs.locked
    · simp [hl, h]
    · simp only [hl]
      simpa using lookup_write_isSome fs d c q h

/-! ### Archive-branch lemmas -/

theorem extractAll_spec (dir : String) (entries : List (String × Bytes))
    (hnd : (entries.map (fun e => pathJoin dir e.1)).Nodup) :
    ∀ fs : FS, fs.locked = [] →
    ∃ fs', extractAll fs dir entries = Except.ok fs' ∧ fs'.locked = [] ∧
      (∀ q, (∀ e ∈ entries, pathJoin dir e.1 ≠ q) → fs'.lookup q = fs.lookup q) ∧
      (∀ e ∈ entries, fs'.lookup (pathJoin dir e.1) = some (FileData.bytes e.2)) := by
  induction entries with
  | nil =>
    intro fs hl
    exact ⟨fs, rfl, hl, fun q _ => rfl, fun e he => absurd he (List.not_mem_nil e)⟩
  | cons e rest ih =>
    intro fs hl
    simp only [List.map_cons, List.nodup_cons] at hnd
    have hhead : ∀ e' ∈ rest, pathJoin dir e'.1 ≠ pathJoin dir e.1 := by
      intro e' he' hcontra
      exact hnd.1 (List.mem_map.mpr ⟨e', he', hcontra⟩)
    obtain ⟨fs', hrun, hlk, hagree, hcontent⟩ :=
      ih hnd.2 (fs.write (pathJoin dir e.1) (FileData.bytes e.2))
        (by rw [write_locked]; exact hl)
    have hnotlocked : pathJoin dir e.1 ∉ fs.locked := by rw [hl]; exact List.not_mem_nil _
    refine ⟨fs', ?_, hlk, ?_, ?_⟩
    · unfold extractAll
      rw [if_neg hnotlocked]
      exact hrun
    · intro q hq
      rw [hagree q (fun e' he' => hq e' (List.mem_cons_of_mem e he')),
        lookup_write_ne _ _ _ _ (fun hh => hq e (List.mem_cons_self e rest) hh.symm)]
    · intro e' he'
      rcases List.mem_cons.mp he' with he' | he'
      · subst he'
        rw [hagree (pathJoin dir e'.1) hhead, lookup_write_self]
      · exact hcontent e' he'

theorem backupMembers_spec (instD bkD : String) (names : List String) :
    ∀ fs : FS, fs.locked = [] →
    (∀ m ∈ names, ∀ m' ∈ names, pathJoin instD m ≠ pathJoin bkD m') →
    ((names.map (fun m => pathJoin bkD m)).Nodup) →
    ∃ fs', backupMembers fs instD bkD names = Except.ok fs' ∧ fs'.locked = [] ∧
      (∀ q, (∀ m ∈ names, pathJoin bkD m ≠ q) → fs'.lookup q = fs.lookup q) ∧
      (∀ m ∈ names, (fs.lookup (pathJoin instD m)).isSome = true →
        fs'.lookup (pathJoin bkD m) = fs.lookup (pathJoin instD m)) := by
  induction names with
  | nil =>
    intro fs hl _ _
    exact ⟨fs, rfl, hl, fun q _ => rfl, fun m hm => absurd hm (List.not_mem_nil m)⟩
  | cons m ms ih =>
    intro fs hl hdisj hnd
    simp only [List.map_cons, List.nodup_cons] at hnd
    have hheadbk : ∀ m' ∈ ms, pathJoin bkD m' ≠ pathJoin bkD m := by
      intro m' hm' hcontra
      exact hnd.1 (List.mem_map.mpr ⟨m', hm', hcontra⟩)
    by_cases he : fs.pathExists (pathJoin instD m) = true
    · obtain ⟨d, hd⟩ := Option.isSome_iff_exists.mp he
      have hcopy : copy2 fs (pathJoin instD m) (pathJoin bkD m) =
          Except.ok (fs.write (pathJoin bkD m) d) := by
        simp [copy2, hd, hl]
      obtain ⟨fs', hrun, hlk, hagree, hbk⟩ :=
        ih (fs.write (pathJoin bkD m) d) (by rw [write_locked]; exact hl)
          (fun a ha b hb => hdisj a (List.mem_cons_of_mem m ha) b (List.mem_cons_of_mem m hb))
          hnd.2
      refine ⟨fs', ?_, hlk, ?_, ?_⟩
      · unfold backupMembers
        rw [if_pos he, hcopy]
        exact hrun
      · intro q hq
        rw [hagree q (fun m' hm' => hq m' (List.mem_cons_of_mem m hm')),
          lookup_write_ne _ _ _ _ (fun hh => hq m (List.mem_cons_self m ms) hh.symm)]
      · intro m' hm' hsome
        rcases List.mem_cons.mp hm' with hm' | hm'
        · subst hm'
          rw [hagree (pathJoin bkD m') hheadbk, lookup_write_self, hd]
        · have hne : pathJoin instD m' ≠ pathJoin bkD m :=
            hdisj m' (List.mem_cons_of_mem m hm') m (List.mem_cons_self m ms)
          have hsome' : ((fs.write (pathJoin bkD m) d).lookup (pathJoin instD m')).isSome
              = true := by
            rw [lookup_write_ne _ _ _ _ hne]; exact hsome
          rw [hbk m' hm' hsome', lookup_write_ne _ _ _ _ hne]
    · obtain ⟨fs', hrun, hlk, hagree, hbk⟩ :=
        ih fs hl
          (fun a ha b hb => hdisj a (List.mem_cons_of_mem m ha) b (List.mem_cons_of_mem m hb))
          hnd.2
      refine ⟨fs', ?_, hlk, ?_, ?_⟩
      · unfold backupMembers
        rw [if_neg he]
        exact hrun
      · intro q hq
        exact hagree q (fun m' hm' => hq m' (List.mem_cons_of_mem m hm'))
      · intro m' hm' hsome
        rcases List.mem_cons.mp hm' with hm' | hm'
        · subst hm'
          exact absurd hsome (by simpa [FS.pathExists] using he)
        · exact hbk m' hm' hsome

/-! ### Preservation: no step of the applier ever deletes a file before the
post-apply cleanup. -/

theorem extractAll_isSome (dir : String) (entries : List (String × Bytes)) :
    ∀ (fs : FS) (q : String), (fs.lookup q).isSome = true →
      (match extractAll fs dir entries with
       | Except.ok fs' => (fs'.lookup q).isSome = true
       | Except.error e => ((e.2).lookup q).isSome = true) := by
  induction entries with
  | nil => intro fs q h; exact h
  | cons e rest ih =>
    intro fs q h
    unfold extractAll
    by_cases hl : pathJoin dir e.1 ∈ fs.locked
    · rw [if_pos hl]; exact h
    · rw [if_neg hl]
      exact ih (fs.write (pathJoin dir e.1) (FileData.bytes e.2)) q
        (lookup_write_isSome fs _ _ q h)

theorem backupMembers_isSome (instD bkD : String) (names : List String) :
    ∀ (fs : FS) (q : String), (fs.lookup q).isSome = true →
      (match backupMembers fs instD bkD names with
       | Except.ok fs' => (fs'.lookup q).isSome = true
       | Except.error e => ((e.2).lookup q).isSome = true) := by
  induction names with
  | nil => intro fs q h; exact h
  | cons m ms ih =>
    intro fs q h
    by_cases he : fs.pathExists (pathJoin instD m) = true
    · cases hd : fs.lookup (pathJoin instD m) with
      | none => exact absurd he (by simp [FS.pathExists, hd])
      | some d =>
        by_cases hlk : pathJoin bkD m ∈ fs.locked
        · simpa [backupMembers, he, copy2, hd, hlk] using h
        · have hrec := ih (fs.write (pathJoin bkD m) d) q (lookup_write_isSome fs _ _ q h)
          simpa [backupMembers, he, copy2, hd, hlk] using hrec
    · have hrec := ih fs q h
      simpa [backupMembers, he] using hrec

theorem copy2_isSome_ok (fs : FS) (src dst : String) (fs' : FS) (q : String)
    (hrun : copy2 fs src dst = Except.ok fs')
    (h : (fs.lookup q).isSome = true) : (fs'.lookup q).isSome = true := by
  unfold copy2 at hrun
  cases hd : fs.lookup src with
  | none => simp [hd] at hrun
  | some d =>
    by_cases hl : dst ∈ fs.locked
    · simp [hd, hl] at hrun
    · simp only [hd, hl, if_false, if_neg, Except.ok.injEq] at hrun
      rw [← hrun]
      exact lookup_write_isSome fs dst d q h

theorem copy2_isSome_error (fs : FS) (src dst : String) (e : String × FS) (q : String)
    (hrun : copy2 fs src dst = Except.error e)
    (h : (fs.lookup q).isSome = true) : ((e.2).lookup q).isSome = true := by
  unfold copy2 at hrun
  cases hd : fs.lookup src with
  | none =>
    simp only [hd, Except.error.injEq] at hrun
    rw [← hrun]
    exact h
  | some d =>
    by_cases hl : dst ∈ fs.locked
    · simp only [hd, hl, if_true, if_pos, Except.error.injEq] at hrun
      rw [← hrun]
      exact h
    · simp [hd, hl] at hrun

theorem archiveBranch_isSome (ctx : Ctx) (fs : FS) (entries : List (String × Bytes))
    (q : String) (h : (fs.lookup q).isSome = true) :
    (((archiveBranch ctx fs entries).fs).lookup q).isSome = true := by
  have hb := backupMembers_isSome (installDirOf ctx) (backupDirOf ctx)
    (entries.map Prod.fst) fs q h
  cases hrun : backupMembers fs (installDirOf ctx) (backupDirOf ctx)
      (entries.map Prod.fst) with
  | error e =>
    rw [hrun] at hb
    simpa only [archiveBranch, hrun] using hb
  | ok fs1 =>
    rw [hrun] at hb
    have hx := extractAll_isSome (installDirOf ctx) entries fs1 q hb
    cases hxr : extractAll fs1 (installDirOf ctx) entries with
    | error e =>
      rw [hxr] at hx
      simpa only [archiveBranch, hrun, hxr] using hx
    | ok fs2 =>
      rw [hxr] at hx
      simpa only [archiveBranch, hrun, hxr] using hx

theorem exeBranch_isSome (ctx : Ctx) (fs : FS) (p q : String)
    (h : (fs.lookup q).isSome = true) :
    (((exeBranch ctx fs p).fs).lookup q).isSome = true := by
  have h1 := bestEffort_isSome fs (ctx.abspath ctx.sysExecutable)
    (ctx.abspath ctx.sysExecutable ++ ".bak_" ++ toString ctx.now) q h
  cases hc : copy2 (bestEffortCopy2 fs (ctx.abspath ctx.sysExecutable)
      (ctx.abspath ctx.sysExecutable ++ ".bak_" ++ toString ctx.now)) p
      (ctx.abspath ctx.sysExecutable) with
  | ok fs2 =>
    simpa only [exeBranch, hc] using copy2_isSome_ok _ _ _ _ _ hc h1
  | error e =>
    have h2 := copy2_isSome_error _ _ _ _ _ hc h1
    cases hc2 : copy2 e.2 p (ctx.abspath ctx.sysExecutable ++ ".new") with
    | ok fs3 =>
      simpa only [exeBranch, hc, hc2] using copy2_isSome_ok _ _ _ _ _ hc2 h2
    | error e2 =>
      simpa only [exeBranch, hc, hc2] using copy2_isSome_error _ _ _ _ _ hc2 h2

theorem scriptBranch_isSome (ctx : Ctx) (fs : FS) (p q : String)
    (h : (fs.lookup q).isSome = true) :
    (((scriptBranch ctx fs p).fs).lookup q).isSome = true := by
  have h1 := bestEffort_isSome fs (ctx.abspath ctx.argv0)
    (ctx.abspath ctx.argv0 ++ ".bak_" ++ toString ctx.now) q h
  cases hc : copy2 (bestEffortCopy2 fs (ctx.abspath ctx.argv0)
      (ctx.abspath ctx.argv0 ++ ".bak_" ++ toString ctx.now)) p
      (ctx.abspath ctx.argv0) with
  | ok fs2 =>
    simpa only [scriptBranch, hc] using copy2_isSome_ok _ _ _ _ _ hc h1
  | error e =>
    simpa only [scriptBranch, hc] using copy2_isSome_error _ _ _ _ _ hc h1

theorem applyCoreBranches_isSome (ctx : Ctx) (fs : FS) (p q : String)
    (h : (fs.lookup q).isSome = true) :
    (((applyCoreBranches ctx fs p).fs).lookup q).isSome = true := by
  unfold applyCoreBranches
  cases hp : fs.lookup p with
  | none => exact h
  | some d =>
    cases d with
    | zip entries => exact archiveBranch_isSome ctx fs entries q h
    | bytes db =>
      by_cases hg : exeGuard ctx p = true
      · rw [if_pos hg]; exact exeBranch_isSome ctx fs p q h
      · rw [if_neg hg]; exact scriptBranch_isSome ctx fs p q h

theorem applyCore_isSome (ctx : Ctx) (fs : FS) (p : String) (exp : Option String)
    (q : String) (h : (fs.lookup q).isSome = true) :
    (((applyCore ctx fs p exp).fs).lookup q).isSome = true := by
  cases exp with
  | none => simpa only [applyCore] using applyCoreBranches_isSome ctx fs p q h
  | some e =>
    by_cases he : e = ""
    · simpa [applyCore, he] using applyCoreBranches_isSome ctx fs p q h
    · cases hd : fs.lookup p with
      | none => simpa [applyCore, he, hd] using h
      | some d =>
        by_cases hm : strLower (ctx.sha256hex d) = strLower e
        · simpa [applyCore, he, hd, hm] using applyCoreBranches_isSome ctx fs p q h
        · simpa [applyCore, he, hd, hm] using h

/-- When the checksum gate passes, `applyCore` is exactly the branch body. -/
theorem applyCore_gate_pass (ctx : Ctx) (fs : FS) (p : String) (exp : Option String)
    (h : checksumPasses ctx fs p exp = true) :
    applyCore ctx fs p exp = applyCoreBranches ctx fs p := by
  cases exp with
  | none => rfl
  | some e =>
    by_cases he : e = ""
    · simp [applyCore, he]
    · cases hd : fs.lookup p with
      | none =>
        exact absurd h (by simp [checksumPasses, he, hd])
      | some d =>
        have hm : strLower (ctx.sha256hex d) = strLower e := by
          have := h
          simp [checksumPasses, he, hd] at this
          exact this
        simp [applyCore, he, hd, hm]

/-! ### Projections of `applyUpdateFile` through `applyCore` -/

theorem applyUpdateFile_branch (ctx : Ctx) (fs : FS) (p : String)
    (exp : Option String) (restart : Bool) :
    (applyUpdateFile ctx fs p exp restart).branch = (applyCore ctx fs p exp).branch := by
  cases hres : (applyCore ctx fs p exp).res with
  | fail m => simp [applyUpdateFile, hres]
  | applied =>
    by_cases hr : restart
    · by_cases hex : ctx.execvOk
      · simp [applyUpdateFile, hres, hr, hex]
      · simp [applyUpdateFile, hres, hr, hex]
    · simp [applyUpdateFile, hres, hr]

theorem applyUpdateFile_fail (ctx : Ctx) (fs : FS) (p : String)
    (exp : Option String) (restart : Bool) (m : String)
    (h : (applyCore ctx fs p exp).res = CoreRes.fail m) :
    (applyUpdateFile ctx fs p exp restart).result = ApplyResult.ret false m ∧
    (applyUpdateFile ctx fs p exp restart).fs = (applyCore ctx fs p exp).fs := by
  constructor <;> simp [applyUpdateFile, h]

theorem applyUpdateFile_applied_fs (ctx : Ctx) (fs : FS) (p : String)
    (exp : Option String) (restart : Bool)
    (h : (applyCore ctx fs p exp).res = CoreRes.applied) :
    (applyUpdateFile ctx fs p exp restart).fs = ((applyCore ctx fs p exp).fs).remove p := by
  by_cases hr : restart
  · by_cases hex : ctx.execvOk
    · simp [applyUpdateFile, h, hr, hex]
    · simp [applyUpdateFile, h, hr, hex]
  · simp [applyUpdateFile, h, hr]

theorem applyUpdateFile_applied_result (ctx : Ctx) (fs : FS) (p : String)
    (exp : Option String) (restart : Bool)
    (h : (applyCore ctx fs p exp).res = CoreRes.applied) :
    (applyUpdateFile ctx fs p exp restart).result = ApplyResult.restarted ∨
    ∃ m, (applyUpdateFile ctx fs p exp restart).result = ApplyResult.ret true m := by
  by_cases hr : restart
  · by_cases hex : ctx.execvOk
    · left; simp [applyUpdateFile, h, hr, hex]
    · right; exact ⟨manualRestartMsg, by simp [applyUpdateFile, h, hr, hex]⟩
  · right; exact ⟨"Mise à jour appliquée", by simp [applyUpdateFile, h, hr]⟩

/-! ### Branch tags of the two single-file branches -/

theorem exeBranch_branch (ctx : Ctx) (fs : FS) (p : String) :
    (exeBranch ctx fs p).branch = some Branch.exeReplace := by
  cases hc : copy2 (bestEffortCopy2 fs (ctx.abspath ctx.sysExecutable)
      (ctx.abspath ctx.sysExecutable ++ ".bak_" ++ toString ctx.now)) p
      (ctx.abspath ctx.sysExecutable) with
  | ok fs2 => simp [exeBranch, hc]
  | error e =>
    cases hc2 : copy2 e.2 p (ctx.abspath ctx.sysExecutable ++ ".new") with
    | ok fs3 => simp [exeBranch, hc, hc2]
    | error e2 => simp [exeBranch, hc, hc2]

theorem scriptBranch_branch (ctx : Ctx) (fs : FS) (p : String) :
    (scriptBranch ctx fs p).branch = some Branch.script := by
  cases hc : copy2 (bestEffortCopy2 fs (ctx.abspath ctx.argv0)
      (ctx.abspath ctx.argv0 ++ ".bak_" ++ toString ctx.now)) p
      (ctx.abspath ctx.argv0) with
  | ok fs2 => simp [scriptBranch, hc]
  | error e => simp [scriptBranch, hc]

/-! ### String facts -/

theorem append_ne_left (s r : String) (h : r.data ≠ []) : s ++ r ≠ s := by
  intro hcontra
  have hd := congrArg String.data hcontra
  rw [String.data_append] at hd
  have hlen := congrArg List.length hd
  rw [List.length_append] at hlen
  have : r.data.length = 0 := by omega
  exact h (List.length_eq_zero.mp this)

theorem bak_ne_self (s ts : String) : s ++ ".bak_" ++ ts ≠ s := by
  rw [String.append_assoc]
  exact append_ne_left s (".bak_" ++ ts) (by simp [String.data_append])

theorem new_ne_self (s : String) : s ++ ".new" ≠ s :=
  append_ne_left s ".new" (by simp)

/-! ## The claims -/

/-- C4 counterexample: the claim states universally that `_compare_versions`
is the split/keep-numeric/zero-pad/first-difference comparator.  On
`a = "3.²"`, `b = "2"` the comprehension raises (`"²"` passes `str.isdigit`
but `int()` rejects it), the `except` branch compares the raw strings and
returns `-1` (less) — while the claimed algorithm's first differing numeric
element (3 vs 2) yields `1` (greater). -/
theorem C4_counterexample :
    compareVersions "3.²" "2" = -1 ∧ compareVersionsSpecC4 "3.²" "2" = 1 ∧
    ¬ compareVersions "3.²" "2" = compareVersionsSpecC4 "3.²" "2" := by decide

/-- C4 amended: on every pair of version strings whose segment comprehension
raises no exception (each segment kept by `str.isdigit` is also accepted by
`int()` — in particular all ASCII inputs), `_compare_versions` splits each
version string on `.`, keeps only purely numeric segments, right-pads the
shorter numeric sequence with zeros to equal length, and compares
element-wise left to right with the first differing element deciding; and
`compare("1.2","1.10") = less`, `compare("2.0","2.0.0") = equal`,
`compare("3","2.9.9") = greater`.  (Where the comprehension raises, the
raw-string fallback decides instead.) -/
theorem C4_compare_versions_spec :
    (∀ a b : String, (pySegmentsParse a).isSome = true →
      (pySegmentsParse b).isSome = true →
      compareVersions a b = compareVersionsSpecC4 a b) ∧
    compareVersions "1.2" "1.10" = -1 ∧
    compareVersions "2.0" "2.0.0" = 0 ∧
    compareVersions "3" "2.9.9" = 1 := by
  refine ⟨?_, by decide, by decide, by decide⟩
  intro a b ha hb
  obtain ⟨pa, hpa⟩ := Option.isSome_iff_exists.mp ha
  obtain ⟨pb, hpb⟩ := Option.isSome_iff_exists.mp hb
  have ea : specNumericSegments a = pa :=
    parseSegments_filter_eq (pySplitDot a) pa (by simpa [pySegmentsParse] using hpa)
  have eb : specNumericSegments b = pb :=
    parseSegments_filter_eq (pySplitDot b) pb (by simpa [pySegmentsParse] using hpb)
  simp [compareVersions, hpa, hpb, compareVersionsSpecC4, ea, eb]

/-- C4 amended witness: the refinement instantiated at `("1.2", "1.10")`. -/
theorem C4_compare_versions_spec_witness :
    (pySegmentsParse "1.2").isSome = true ∧
    compareVersions "1.2" "1.10" = compareVersionsSpecC4 "1.2" "1.10" :=
  ⟨by decide, C4_compare_versions_spec.1 "1.2" "1.10" (by decide) (by decide)⟩

/-- C5 counterexample: the claim says `compare("a","b")` yields less (`-1`);
the code filters the non-numeric segments out *before* `int()` runs, so no
exception occurs, both segment lists are empty, the padded loop body never
executes, and the function returns `0` (equal) — the raw-string fallback in
the `except` branch is not reached. -/
theorem C5_counterexample :
    compareVersions "a" "b" = 0 ∧ ¬ compareVersions "a" "b" = -1 := by decide

/-- C5 amended: for version strings whose numeric-segment sequences are
equal-length all-zero (in particular strings with no numeric dot-separated
segments), `_compare_versions` returns equal regardless of whether the raw
strings are identical; `compare("a.b","a.b") = equal` and also
`compare("a","b") = equal`. -/
theorem C5_amended_all_zero_equal :
    (∀ (a b : String) (pa pb : List Nat), pySegmentsParse a = some pa →
      pySegmentsParse b = some pb → pa.length = pb.length →
      (∀ x ∈ pa, x = 0) → (∀ x ∈ pb, x = 0) → compareVersions a b = 0) ∧
    compareVersions "a.b" "a.b" = 0 ∧ compareVersions "a" "b" = 0 := by
  refine ⟨?_, by decide, by decide⟩
  intro a b pa pb hpa hpb hlen h1 h2
  have hpapb : pa = pb := allZero_eq hlen h1 h2
  subst hpapb
  simp [compareVersions, hpa, hpb, lexCompare_self]

/-- C5 amended witness: instantiated at `("x", "y.z")`, both of which parse
to the empty (hence equal-length all-zero) segment list. -/
theorem C5_amended_all_zero_equal_witness :
    pySegmentsParse "x" = some [] ∧ compareVersions "x" "y.z" = 0 :=
  ⟨by decide, C5_amended_all_zero_equal.1 "x" "y.z" [] [] (by decide) (by decide)
    rfl (by simp) (by simp)⟩

/-- C10 counterexample: the superscript `²` satisfies `str.isdigit` but
`int()` rejects it, so the comprehension raises and the `except` fallback is
reachable; `compare("²","²")` is decided by the raw-string fallback. -/
theorem C10_counterexample :
    pyIsDigit "²" = true ∧ pyInt? "²" = Option.none ∧
    pySegmentsParse "²" = Option.none ∧ compareVersions "²" "²" = 0 := by decide

/-- C10 amended: for every pair of strings, `_compare_versions` terminates
without raising and returns a value in `{-1, 0, 1}`; however the
raw-string-equality fallback in its `except` branch is reachable (a segment
such as `²` passes `str.isdigit` and then makes `int()` raise), and in that
case the fallback decides the result. -/
theorem C10_amended_total_in_range (a b : String) :
    compareVersions a b = -1 ∨ compareVersions a b = 0 ∨ compareVersions a b = 1 := by
  unfold compareVersions
  cases hpa : pySegmentsParse a with
  | none => by_cases hab : a = b <;> simp [hab]
  | some pa =>
    cases hpb : pySegmentsParse b with
    | none => by_cases hab : a = b <;> simp [hab]
    | some pb => simpa using lexCompare_cases _ _

/-- C6 counterexample: the claim (and the spec) says a JSON list normalizes
to its *recursively normalized* first element; the code treats the first
element one level deep only, so a nested list yields no update even though
its recursive normalization would yield version `"1.3"`. -/
theorem C6_counterexample :
    updatePipeline (some (JVal.jarr [JVal.jarr [JVal.jstr "1.3"]])) = Option.none ∧
    updatePipeline (some (JVal.jarr [JVal.jstr "1.3"])) = some "1.3" :=
  ⟨rfl, rfl⟩

/-- C6 amended: the pipeline maps a parsed JSON object to itself (aliases
`ver`, `v`, `release` resolved to `version` downstream), a bare scalar to
`{version: str(scalar)}`, and a non-empty list to its first element when
that element is an object or scalar (one level, not recursive: a nested
list yields no update); the inputs `"1.3"`, `1.3`, `{"ver":"1.3"}`,
`{"release":"1.3"}` and `[{"version":"1.3"}]` all yield version `"1.3"`,
while `{}`, `[]` and unparsable bodies yield no update. -/
theorem C6_amended_normalization :
    (∀ s, fetchNormalize (some (JVal.jstr s)) = some [("version", JVal.jstr s)]) ∧
    (∀ r, fetchNormalize (some (JVal.jnum r)) = some [("version", JVal.jstr r)]) ∧
    (∀ fields, fetchNormalize (some (JVal.jobj fields)) = some fields) ∧
    (∀ fields rest, fetchNormalize (some (JVal.jarr (JVal.jobj fields :: rest))) =
      some fields) ∧
    (∀ s rest, fetchNormalize (some (JVal.jarr (JVal.jstr s :: rest))) =
      some [("version", JVal.jstr s)]) ∧
    (∀ xs rest, fetchNormalize (some (JVal.jarr (JVal.jarr xs :: rest))) = Option.none) ∧
    updatePipeline (some (JVal.jstr "1.3")) = some "1.3" ∧
    updatePipeline (some (JVal.jnum "1.3")) = some "1.3" ∧
    updatePipeline (some (JVal.jobj [("ver", JVal.jstr "1.3")])) = some "1.3" ∧
    updatePipeline (some (JVal.jobj [("release", JVal.jstr "1.3")])) = some "1.3" ∧
    updatePipeline (some (JVal.jarr [JVal.jobj [("version", JVal.jstr "1.3")]])) =
      some "1.3" ∧
    updatePipeline (some (JVal.jobj [])) = Option.none ∧
    updatePipeline (some (JVal.jarr [])) = Option.none ∧
    updatePipeline Option.none = Option.none := by
  refine ⟨fun s => rfl, fun r => rfl, fun fields => rfl, fun fields rest => rfl,
    fun s rest => rfl, fun xs rest => rfl, rfl, rfl, rfl, rfl, rfl, rfl, rfl, rfl⟩

/-- C1: for every call to `_apply_update_file` with a non-empty expected
checksum whose case-insensitive hex comparison with the artifact's digest
fails, no file of the installation is modified (the whole state is
unchanged), no install branch is entered, and the function returns the
checksum-mismatch failure. -/
theorem C1_checksum_gate (ctx : Ctx) (fs : FS) (p exp : String) (restart : Bool)
    (d : FileData) (hne : exp ≠ "") (hd : fs.lookup p = some d)
    (hmm : strLower (ctx.sha256hex d) ≠ strLower exp) :
    (applyUpdateFile ctx fs p (some exp) restart).fs = fs ∧
    (applyUpdateFile ctx fs p (some exp) restart).branch = Option.none ∧
    (applyUpdateFile ctx fs p (some exp) restart).result =
      ApplyResult.ret false ("SHA256 mismatch (got " ++ ctx.sha256hex d ++ ")") := by
  have hcore : applyCore ctx fs p (some exp) =
      ⟨CoreRes.fail ("SHA256 mismatch (got " ++ ctx.sha256hex d ++ ")"), fs,
        Option.none⟩ := by
    simp [applyCore, hne, hd, hmm]
  refine ⟨?_, ?_, ?_⟩ <;> simp [applyUpdateFile, hcore]

/-- C1 witness: digest `"aa"`, expected `"bb"` — the state is untouched and
the mismatch is reported. -/
theorem C1_checksum_gate_witness :
    ("bb" : String) ≠ "" ∧
    (applyUpdateFile ctxScript fsScript "/tmp/u.py" (some "bb") false).fs = fsScript ∧
    (applyUpdateFile ctxScript fsScript "/tmp/u.py" (some "bb") false).result =
      ApplyResult.ret false "SHA256 mismatch (got aa)" :=
  have h := C1_checksum_gate ctxScript fsScript "/tmp/u.py" "bb" false
    (FileData.bytes [7]) (by decide) (by decide) (by decide)
  ⟨by decide, h.1, h.2.2⟩

/-- C7: if the on-disk update has been applied successfully (the same call
with `restart=False` reports success) and `os.execv` fails, the call with
`restart=True` still returns `True` with the manual-restart message, and
leaves the same on-disk state — a restart failure after a durable apply is
never reported as an update failure. -/
theorem C7_restart_failure_reports_success (ctx : Ctx) (fs : FS) (p : String)
    (exp : Option String) (hexec : ctx.execvOk = false)
    (hok : (applyUpdateFile ctx fs p exp false).result =
      ApplyResult.ret true "Mise à jour appliquée") :
    (applyUpdateFile ctx fs p exp true).result = ApplyResult.ret true manualRestartMsg ∧
    (applyUpdateFile ctx fs p exp true).fs = (applyUpdateFile ctx fs p exp false).fs := by
  cases hres : (applyCore ctx fs p exp).res with
  | fail m =>
    exfalso
    have hfail := (applyUpdateFile_fail ctx fs p exp false m hres).1
    rw [hok] at hfail
    simp at hfail
  | applied =>
    constructor
    · simp [applyUpdateFile, hres, hexec]
    · rw [applyUpdateFile_applied_fs ctx fs p exp true hres,
        applyUpdateFile_applied_fs ctx fs p exp false hres]

/-- C7 witness: a successful script update whose `os.execv` fails. -/
theorem C7_restart_failure_witness :
    ctxScriptNoExec.execvOk = false ∧
    (applyUpdateFile ctxScriptNoExec fsScript "/tmp/u.py" Option.none true).result =
      ApplyResult.ret true manualRestartMsg :=
  ⟨rfl, (C7_restart_failure_reports_success ctxScriptNoExec fsScript "/tmp/u.py"
    Option.none rfl (by decide)).1⟩

/-- C9 counterexample: the claim says the scratch artifact is deleted
regardless of outcome; on a checksum-mismatch failure the function returns
*before* the cleanup step, and the artifact is still on disk. -/
theorem C9_counterexample :
    (applyUpdateFile ctxScript fsScript "/tmp/u.py" (some "bb") false).result =
      ApplyResult.ret false "SHA256 mismatch (got aa)" ∧
    (applyUpdateFile ctxScript fsScript "/tmp/u.py" (some "bb") false).fs.lookup
      "/tmp/u.py" = some (FileData.bytes [7]) := by decide

/-- C9 amended: the scratch artifact (present on disk at call time) is
deleted exactly on the outcomes that reach the post-branch cleanup — a
successful apply (reported success or successful restart); on every failure
return (checksum mismatch, branch write failure, raised error) the function
returns before the cleanup and the artifact survives. -/
theorem C9_amended_cleanup_iff_applied (ctx : Ctx) (fs : FS) (p : String)
    (exp : Option String) (restart : Bool) (hp : (fs.lookup p).isSome = true) :
    ((applyUpdateFile ctx fs p exp restart).fs.lookup p = Option.none ↔
      ((applyUpdateFile ctx fs p exp restart).result = ApplyResult.restarted ∨
        ∃ m, (applyUpdateFile ctx fs p exp restart).result = ApplyResult.ret true m)) := by
  have hcore := applyCore_isSome ctx fs p exp p hp
  cases hres : (applyCore ctx fs p exp).res with
  | fail m =>
    obtain ⟨hr, hf⟩ := applyUpdateFile_fail ctx fs p exp restart m hres
    rw [hr, hf]
    constructor
    · intro hnone
      rw [hnone] at hcore
      simp at hcore
    · rintro (hc | ⟨m', hc⟩) <;> simp at hc
  | applied =>
    rw [applyUpdateFile_applied_fs ctx fs p exp restart hres, lookup_remove_self]
    constructor
    · intro _
      exact applyUpdateFile_applied_result ctx fs p exp restart hres
    · intro _
      rfl

/-- C9 amended witness: a successful apply deletes the artifact. -/
theorem C9_amended_witness :
    (fsScript.lookup "/tmp/u.py").isSome = true ∧
    (applyUpdateFile ctxScript fsScript "/tmp/u.py" Option.none false).fs.lookup
      "/tmp/u.py" = Option.none :=
  ⟨by decide,
    (C9_amended_cleanup_iff_applied ctxScript fsScript "/tmp/u.py" Option.none false
      (by decide)).mpr (Or.inr ⟨"Mise à jour appliquée", by decide⟩)⟩

/-- C3: in the executable-replacement branch, when the OS write-locks the
running executable path, the original executable is left byte-identical,
the downloaded bytes are written to the `.new` sibling, and the function
returns a failure whose message names that `.new` path. -/
theorem C3_exe_overwrite_fallback (ctx : Ctx) (fs : FS) (p : String)
    (exp : Option String) (restart : Bool) (db : Bytes)
    (hart : fs.lookup p = some (FileData.bytes db))
    (hsha : checksumPasses ctx fs p exp = true)
    (hguard : exeGuard ctx p = true)
    (hlockT : ctx.abspath ctx.sysExecutable ∈ fs.locked)
    (hlockA : ctx.abspath ctx.sysExecutable ++ ".new" ∉ fs.locked)
    (hpb : p ≠ ctx.abspath ctx.sysExecutable ++ ".bak_" ++ toString ctx.now) :
    (applyUpdateFile ctx fs p exp restart).fs.lookup (ctx.abspath ctx.sysExecutable) =
      fs.lookup (ctx.abspath ctx.sysExecutable) ∧
    (applyUpdateFile ctx fs p exp restart).fs.lookup
      (ctx.abspath ctx.sysExecutable ++ ".new") = some (FileData.bytes db) ∧
    (applyUpdateFile ctx fs p exp restart).result = ApplyResult.ret false
      ("Impossible d\x27écraser l\x27exécutable en cours. Nouveau fichier écrit : " ++
        (ctx.abspath ctx.sysExecutable ++ ".new")) := by
  have hfs1p : (bestEffortCopy2 fs (ctx.abspath ctx.sysExecutable)
      (ctx.abspath ctx.sysExecutable ++ ".bak_" ++ toString ctx.now)).lookup p =
      some (FileData.bytes db) := by
    rw [bestEffort_lookup_ne fs _ _ p hpb]
    exact hart
  have hfs1lock := bestEffort_locked fs (ctx.abspath ctx.sysExecutable)
    (ctx.abspath ctx.sysExecutable ++ ".bak_" ++ toString ctx.now)
  have hc1 : copy2 (bestEffortCopy2 fs (ctx.abspath ctx.sysExecutable)
      (ctx.abspath ctx.sysExecutable ++ ".bak_" ++ toString ctx.now)) p
      (ctx.abspath ctx.sysExecutable) =
      Except.error ("PermissionError: " ++ ctx.abspath ctx.sysExecutable,
        bestEffortCopy2 fs (ctx.abspath ctx.sysExecutable)
          (ctx.abspath ctx.sysExecutable ++ ".bak_" ++ toString ctx.now)) := by
    simp [copy2, hfs1p, hfs1lock, hlockT]
  have hc2 : copy2 (bestEffortCopy2 fs (ctx.abspath ctx.sysExecutable)
      (ctx.abspath ctx.sysExecutable ++ ".bak_" ++ toString ctx.now)) p
      (ctx.abspath ctx.sysExecutable ++ ".new") =
      Except.ok ((bestEffortCopy2 fs (ctx.abspath ctx.sysExecutable)
        (ctx.abspath ctx.sysExecutable ++ ".bak_" ++ toString ctx.now)).write
          (ctx.abspath ctx.sysExecutable ++ ".new") (FileData.bytes db)) := by
    simp [copy2, hfs1p, hfs1lock, hlockA]
  have hbr : exeBranch ctx fs p =
      ⟨CoreRes.fail
        ("Impossible d\x27écraser l\x27exécutable en cours. Nouveau fichier écrit : " ++
          (ctx.abspath ctx.sysExecutable ++ ".new")),
        (bestEffortCopy2 fs (ctx.abspath ctx.sysExecutable)
          (ctx.abspath ctx.sysExecutable ++ ".bak_" ++ toString ctx.now)).write
            (ctx.abspath ctx.sysExecutable ++ ".new") (FileData.bytes db),
        some Branch.exeReplace⟩ := by
    simp [exeBranch, hc1, hc2]
  have hcore : applyCore ctx fs p exp = exeBranch ctx fs p := by
    rw [applyCore_gate_pass ctx fs p exp hsha]
    simp [applyCoreBranches, hart, hguard]
  have hres : (applyCore ctx fs p exp).res = CoreRes.fail
      ("Impossible d\x27écraser l\x27exécutable en cours. Nouveau fichier écrit : " ++
        (ctx.abspath ctx.sysExecutable ++ ".new")) := by
    rw [hcore, hbr]
  obtain ⟨hr, hf⟩ := applyUpdateFile_fail ctx fs p exp restart _ hres
  refine ⟨?_, ?_, hr⟩
  · rw [hf, hcore, hbr]
    simp only
    rw [lookup_write_ne _ _ _ _ (Ne.symm (new_ne_self (ctx.abspath ctx.sysExecutable)))]
    exact bestEffort_lookup_ne fs _ _ _
      (Ne.symm (bak_ne_self (ctx.abspath ctx.sysExecutable) (toString ctx.now)))
  · rw [hf, hcore, hbr]
    simp only
    exact lookup_write_self _ _ _

/-- C3 witness: a locked `/app/app.exe` with a downloaded `/tmp/up.exe`. -/
theorem C3_exe_overwrite_fallback_witness :
    exeGuard ctxRelExe "/tmp/up.exe" = true ∧
    (applyUpdateFile ctxRelExe fsLockedExe "/tmp/up.exe" Option.none false).fs.lookup
      (ctxRelExe.abspath ctxRelExe.sysExecutable ++ ".new") = some (FileData.bytes [7]) ∧
    (applyUpdateFile ctxRelExe fsLockedExe "/tmp/up.exe" Option.none false).fs.lookup
      (ctxRelExe.abspath ctxRelExe.sysExecutable) =
      fsLockedExe.lookup (ctxRelExe.abspath ctxRelExe.sysExecutable) :=
  have h := C3_exe_overwrite_fallback ctxRelExe fsLockedExe "/tmp/up.exe" Option.none
    false [7] (by decide) (by decide) (by decide) (by decide) (by decide) (by decide)
  ⟨by decide, h.2.1, h.1⟩

/-- C8 counterexample: the claim says the executable-replacement branch is
taken only when the target executable is not the currently-executing
interpreter.  Here `sys.executable` is the relative path `python.exe`, so
`running_binary = abspath(sys.executable) = "/cwd/python.exe"` — the very
same file as the interpreter (its `abspath` is itself, i.e. it is exactly
the normalized interpreter path) — yet the branch is taken and overwrites
it with the artifact's bytes.  The code's third conjunct compares a path
string with its own `abspath`, which does not test file identity. -/
theorem C8_counterexample :
    (applyUpdateFile ctxRelPy fsCwdPy "/tmp/up.exe" Option.none false).branch =
      some Branch.exeReplace ∧
    (applyUpdateFile ctxRelPy fsCwdPy "/tmp/up.exe" Option.none false).fs.lookup
      "/cwd/python.exe" = some (FileData.bytes [7]) ∧
    ctxRelPy.abspath ctxRelPy.sysExecutable = "/cwd/python.exe" ∧
    ctxRelPy.abspath (ctxRelPy.abspath ctxRelPy.sysExecutable) =
      ctxRelPy.abspath ctxRelPy.sysExecutable := by decide

/-- C8 amended: for a non-archive artifact (checksum gate passing),
`_apply_update_file` takes the executable-replacement branch exactly when
the artifact's name ends in `.exe` (case-insensitively), the basename of
`abspath(sys.executable)` ends in `.exe`, and `abspath(sys.executable)`
differs from `sys.executable` *as a raw string* (the interpreter path was
not already in normalized absolute form) — not when the target executable
is a different file from the interpreter; otherwise it falls through to the
script-replacement branch. -/
theorem C8_amended_exe_guard (ctx : Ctx) (fs : FS) (p : String) (exp : Option String)
    (restart : Bool) (db : Bytes)
    (hart : fs.lookup p = some (FileData.bytes db))
    (hsha : checksumPasses ctx fs p exp = true) :
    ((applyUpdateFile ctx fs p exp restart).branch = some Branch.exeReplace ↔
      exeGuard ctx p = true) ∧
    ((applyUpdateFile ctx fs p exp restart).branch = some Branch.script ↔
      exeGuard ctx p = false) := by
  rw [applyUpdateFile_branch, applyCore_gate_pass ctx fs p exp hsha]
  by_cases hg : exeGuard ctx p = true
  · have hb : (applyCoreBranches ctx fs p).branch = some Branch.exeReplace := by
      simp [applyCoreBranches, hart, hg, exeBranch_branch]
    rw [hb]
    simp [hg]
  · rw [Bool.not_eq_true] at hg
    have hb : (applyCoreBranches ctx fs p).branch = some Branch.script := by
      simp [applyCoreBranches, hart, hg, scriptBranch_branch]
    rw [hb]
    simp [hg]

/-- C8 amended witness: the guard holds at the counterexample context, and
the branch tag follows it. -/
theorem C8_amended_exe_guard_witness :
    exeGuard ctxRelPy "/tmp/up.exe" = true ∧
    (applyUpdateFile ctxRelPy fsCwdPy "/tmp/up.exe" Option.none false).branch =
      some Branch.exeReplace :=
  have h := C8_amended_exe_guard ctxRelPy fsCwdPy "/tmp/up.exe" Option.none false [7]
    (by decide) (by decide)
  ⟨by decide, h.1.mpr (by decide)⟩

/-- C2: in the archive branch (checksum gate passing, no write locks, and
member target/backup paths free of collisions with each other and with the
scratch artifact), every member of the zip whose target path already exists
has a byte-for-byte copy of the pre-apply file at the same relative path in
the timestamped backup directory after the apply, the installed file at each
target equals the archive member, the archive branch is the one entered, and
the apply reports success. -/
theorem C2_archive_backup_before_overwrite (ctx : Ctx) (fs : FS) (p : String)
    (exp : Option String) (restart : Bool) (entries : List (String × Bytes))
    (hzip : fs.lookup p = some (FileData.zip entries))
    (hsha : checksumPasses ctx fs p exp = true)
    (hlock : fs.locked = [])
    (htnd : (entries.map (fun e => pathJoin (installDirOf ctx) e.1)).Nodup)
    (hbnd : ((entries.map Prod.fst).map (fun m => pathJoin (backupDirOf ctx) m)).Nodup)
    (hdisj : ∀ m ∈ entries.map Prod.fst, ∀ m' ∈ entries.map Prod.fst,
      pathJoin (installDirOf ctx) m ≠ pathJoin (backupDirOf ctx) m')
    (hp1 : ∀ e ∈ entries, pathJoin (installDirOf ctx) e.1 ≠ p)
    (hp2 : ∀ e ∈ entries, pathJoin (backupDirOf ctx) e.1 ≠ p) :
    (∀ e ∈ entries,
      (applyUpdateFile ctx fs p exp restart).fs.lookup
        (pathJoin (installDirOf ctx) e.1) = some (FileData.bytes e.2)) ∧
    (∀ e ∈ entries, fs.pathExists (pathJoin (installDirOf ctx) e.1) = true →
      (applyUpdateFile ctx fs p exp restart).fs.lookup
        (pathJoin (backupDirOf ctx) e.1) = fs.lookup (pathJoin (installDirOf ctx) e.1)) ∧
    (applyUpdateFile ctx fs p exp restart).branch = some Branch.archive ∧
    ((applyUpdateFile ctx fs p exp restart).result = ApplyResult.restarted ∨
      ∃ m, (applyUpdateFile ctx fs p exp restart).result = ApplyResult.ret true m) := by
  obtain ⟨fs1, hrun1, hlk1, hagree1, hbk1⟩ :=
    backupMembers_spec (installDirOf ctx) (backupDirOf ctx) (entries.map Prod.fst)
      fs hlock hdisj hbnd
  obtain ⟨fs2, hrun2, hlk2, hagree2, hcontent2⟩ :=
    extractAll_spec (installDirOf ctx) entries htnd fs1 hlk1
  have hbr : archiveBranch ctx fs entries =
      ⟨CoreRes.applied, fs2, some Branch.archive⟩ := by
    simp [archiveBranch, hrun1, hrun2]
  have hcore : applyCore ctx fs p exp = ⟨CoreRes.applied, fs2, some Branch.archive⟩ := by
    rw [applyCore_gate_pass ctx fs p exp hsha]
    simp [applyCoreBranches, hzip, hbr]
  have hres : (applyCore ctx fs p exp).res = CoreRes.applied := by rw [hcore]
  have hfs : (applyUpdateFile ctx fs p exp restart).fs = fs2.remove p := by
    rw [applyUpdateFile_applied_fs ctx fs p exp restart hres, hcore]
  refine ⟨?_, ?_, ?_, ?_⟩
  · intro e he
    rw [hfs, lookup_remove_ne _ _ _ (hp1 e he)]
    exact hcontent2 e he
  · intro e he hex
    rw [hfs, lookup_remove_ne _ _ _ (hp2 e he)]
    have hne : ∀ e' ∈ entries,
        pathJoin (installDirOf ctx) e'.1 ≠ pathJoin (backupDirOf ctx) e.1 := by
      intro e' he'
      exact hdisj e'.1 (List.mem_map_of_mem Prod.fst he')
        e.1 (List.mem_map_of_mem Prod.fst he)
    rw [hagree2 _ hne]
    exact hbk1 e.1 (List.mem_map_of_mem Prod.fst he) hex
  · rw [applyUpdateFile_branch, hcore]
  · exact applyUpdateFile_applied_result ctx fs p exp restart hres

/-- C2 witness: a two-member archive, `a.txt` colliding with an installed
file: the backup holds the old bytes and the target the new ones. -/
theorem C2_archive_backup_witness :
    (applyUpdateFile ctxScript fsArchive "/tmp/u.zip" Option.none false).fs.lookup
      "/app/a.txt" = some (FileData.bytes [1]) ∧
    (applyUpdateFile ctxScript fsArchive "/tmp/u.zip" Option.none false).fs.lookup
      "/app/backup_42/a.txt" = some (FileData.bytes [5]) := by
  have h := C2_archive_backup_before_overwrite ctxScript fsArchive "/tmp/u.zip"
    Option.none false [("a.txt", [1]), ("b.txt", [2])] (by decide) (by decide) rfl
    (by decide) (by decide) (by decide) (by decide) (by decide)
  refine ⟨?_, ?_⟩
  · exact h.1 ("a.txt", [1]) (by decide)
  · exact (h.2.1 ("a.txt", [1]) (by decide) (by decide)).trans (by decide)

end OrganiseTesCours
